import Mathlib

/-!
# State and parameter estimators of the vector-control firmware

A shallow embedding of `src/include/estimator.h`.  Scalars of C type `float`
are elements of an arbitrary field `F` (exact arithmetic); the theorems are
instantiated at an ordered field or at the reals where order or the
exponential is needed.  Where rounding or a division by zero decides a
property, `set_params` is read over binary32 values instead (`binary32`,
`set_params_arith`).  C arrays `float x[n]` are functions `Fin n → F`, an
assignment `x[i] = v` is `Function.update x i v`.  Member functions take the
object as an explicit state and return the state they leave behind.
-/

namespace VectorControl

/-! ## Data model -/

/-- Modelled from the spec: the declaration of `motor_state_t` is in a header
that is not among the sources; the fields are the ones `estimator.h` assigns
(`angular_acceleration_rad_per_s2`, `angular_velocity_rad_per_s`, `angle_rad`,
`i_dq_a[0]`, `i_dq_a[1]`), which are also the attributes the data model of
the specification lists for it. -/
structure motor_state_t (F : Type) where
  angular_acceleration_rad_per_s2 : F
  angular_velocity_rad_per_s : F
  angle_rad : F
  i_dq_a : Fin 2 → F

/-- Modelled from the spec: the declaration of `motor_params_t` is in a header
that is not among the sources; the fields are the ones `set_params` reads:
stator resistance, stator inductance and flux linkage. -/
structure motor_params_t (F : Type) where
  rs_r : F
  ls_h : F
  phi_v_s_per_rad : F

/-- Modelled from the spec: the declaration of `control_params_t` is in a
header that is not among the sources; the only field `set_params` reads is the
closed-loop bandwidth. -/
structure control_params_t (F : Type) where
  bandwidth_hz : F

/-- The data members of `class StateEstimator`, in declaration order. -/
structure StateEstimator (F : Type) where
  state_estimate_ : motor_state_t F
  a_ : F
  b_ : F
  c_ : F
  t_ : F
  t_inv_ : F
  i_dq_lpf_coeff_ : F
  angular_velocity_lpf_coeff_ : F
  state_covariance_ : Fin 4 → F
  last_i_ab_a_ : Fin 2 → F
  next_sin_theta_ : F
  next_cos_theta_ : F

/-- The data members of `class ParameterEstimator`, in declaration order; the
two `uint16_t` members are natural numbers. -/
structure ParameterEstimator (F : Type) where
  sample_voltages_ : Fin 4 → F
  sample_currents_ : Fin 4 → F
  open_loop_angular_velocity_rad_per_s_ : F
  open_loop_angle_rad_ : F
  v_ : F
  t_ : F
  test_idx_ : Nat
  open_loop_test_samples_ : Nat

section Operations

variable {F : Type} [Field F]

/-! ## StateEstimator -/

/-- The constructor `StateEstimator::StateEstimator()`: the member
initialiser list followed by the assignments of the body.  The arrays start
from an arbitrary content (here zero) and every element is then assigned. -/
def StateEstimator.new : StateEstimator F :=
  { state_estimate_ :=
      { angular_acceleration_rad_per_s2 := 0
        angular_velocity_rad_per_s := 0
        angle_rad := 0
        i_dq_a := Function.update (Function.update (fun _ => 0) 1 0) 0 0 }
    a_ := 0
    b_ := 0
    c_ := 0
    t_ := 0
    t_inv_ := 0
    i_dq_lpf_coeff_ := 0
    angular_velocity_lpf_coeff_ := 0
    state_covariance_ :=
      Function.update (Function.update (Function.update (Function.update
        (fun _ => 0) 3 0) 2 0) 1 0) 0 0
    last_i_ab_a_ := Function.update (Function.update (fun _ => 0) 1 0) 0 0
    next_sin_theta_ := 0
    next_cos_theta_ := 1 }

/-- The member function `StateEstimator::reset_state`, statement by statement.
A chained assignment `x[i] = x[j] = v` stores `x[j]` first, then `x[i]`. -/
def reset_state (s : StateEstimator F) : StateEstimator F :=
  let s1 := { s with state_estimate_ :=
    { s.state_estimate_ with angular_acceleration_rad_per_s2 := 0 } }
  let s2 := { s1 with state_estimate_ :=
    { s1.state_estimate_ with angular_velocity_rad_per_s := 0 } }
  let s3 := { s2 with state_estimate_ :=
    { s2.state_estimate_ with angle_rad := 0 } }
  let s4 := { s3 with next_sin_theta_ := 0 }
  let s5 := { s4 with next_cos_theta_ := 1 }
  let s6 := { s5 with
    last_i_ab_a_ := Function.update (Function.update s5.last_i_ab_a_ 1 0) 0 0 }
  let s7 := { s6 with
    state_covariance_ :=
      Function.update (Function.update s6.state_covariance_ 2 100) 0 100 }
  { s7 with
    state_covariance_ :=
      Function.update (Function.update s7.state_covariance_ 3 10) 1 10 }

/-- The member function `StateEstimator::get_state_estimate`: the stored
estimate is copied to the output; the object is left as it is. -/
def get_state_estimate (s : StateEstimator F) :
    StateEstimator F × motor_state_t F :=
  (s, s.state_estimate_)

/-- The member function `StateEstimator::get_est_v_alpha_beta_from_v_dq`.
The helper `inverse_park_transform` of `park.h` is not among the sources and
is a parameter: a function from the d/q input, a sine and a cosine to the
two-element output array it fills. -/
def get_est_v_alpha_beta_from_v_dq
    (inverse_park_transform : (Fin 2 → F) → F → F → (Fin 2 → F))
    (s : StateEstimator F) (in_v_dq : Fin 2 → F) :
    StateEstimator F × (Fin 2 → F) :=
  (s, inverse_park_transform in_v_dq s.next_sin_theta_ s.next_cos_theta_)

/-- Modelled from the spec: `inverse_park_transform` is defined in `park.h`,
which is not among the sources.  This is the standard inverse Park transform,
`alpha = d * cos - q * sin`, `beta = d * sin + q * cos`, with the argument
order of the call in `estimator.h` (input vector, sine, cosine). -/
def inverse_park_transform (in_v_dq : Fin 2 → F) (sin_theta cos_theta : F) :
    Fin 2 → F :=
  Function.update
    (Function.update (fun _ => 0) 0
      (in_v_dq 0 * cos_theta - in_v_dq 1 * sin_theta))
    1 (in_v_dq 0 * sin_theta + in_v_dq 1 * cos_theta)

/-- The member function `StateEstimator::set_params`, statement by statement,
in exact arithmetic: no operation rounds and `x / 0 = 0` (the binary32 reading
of the same statements is `set_params_arith` with `binary32_arith`).
`fast_expf` and the constant `M_PI` come from headers that are not among the
sources and are parameters. -/
def set_params (fast_expf : F → F) (M_PI : F) (s : StateEstimator F)
    (params : motor_params_t F) (control_params : control_params_t F)
    (t_s : F) : StateEstimator F :=
  let s1 := { s with a_ := 1 - params.rs_r / params.ls_h * t_s }
  let s2 := { s1 with b_ := params.phi_v_s_per_rad / params.ls_h * t_s }
  let s3 := { s2 with c_ := t_s / params.ls_h }
  let s4 := { s3 with t_ := t_s }
  let s5 := { s4 with t_inv_ := 1 / t_s }
  let wb : F := 2 * M_PI * control_params.bandwidth_hz
  let s6 := { s5 with i_dq_lpf_coeff_ := 1 - fast_expf (-wb * t_s * 50) }
  { s6 with angular_velocity_lpf_coeff_ := 1 - fast_expf (-wb * t_s) }

/-! ## ParameterEstimator -/

/-- The constructor `ParameterEstimator::ParameterEstimator()`. -/
def ParameterEstimator.new : ParameterEstimator F :=
  { sample_voltages_ :=
      Function.update (Function.update (Function.update (Function.update
        (fun _ => 0) 3 0) 2 0) 1 0) 0 0
    sample_currents_ :=
      Function.update (Function.update (Function.update (Function.update
        (fun _ => 0) 3 0) 2 0) 1 0) 0 0
    open_loop_angular_velocity_rad_per_s_ := 0
    open_loop_angle_rad_ := 0
    v_ := 0
    t_ := 0
    test_idx_ := 0
    open_loop_test_samples_ := 0 }

/-- The member function `ParameterEstimator::is_estimation_complete`. -/
def is_estimation_complete (p : ParameterEstimator F) : Bool :=
  p.test_idx_ == 4

/-- The member function `ParameterEstimator::get_samples`: the two `memcpy`
calls copy all four voltages and all four currents; the object is left as it
is. -/
def get_samples (p : ParameterEstimator F) :
    ParameterEstimator F × (Fin 4 → F) × (Fin 4 → F) :=
  (p, (fun i => p.sample_voltages_ i), (fun i => p.sample_currents_ i))

end Operations

/-! ## Reading the covariance array as a matrix -/

section Covariance

variable {F : Type}

/-- Entry `(i, j)` of the 2x2 matrix stored column-major in a four-element
array: column `j` occupies indices `2 * j` and `2 * j + 1`. -/
def cov_entry (c : Fin 4 → F) (i j : Fin 2) : F :=
  c ⟨i.val + 2 * j.val, by omega⟩

/-- The matrix read from the array is symmetric. -/
def cov_symmetric (c : Fin 4 → F) : Prop :=
  ∀ i j : Fin 2, cov_entry c i j = cov_entry c j i

/-- The quadratic form `x^T P x` of the matrix read from the array. -/
def cov_quadratic_form [Field F] (c : Fin 4 → F) (x : Fin 2 → F) : F :=
  x 0 * (cov_entry c 0 0 * x 0 + cov_entry c 0 1 * x 1) +
    x 1 * (cov_entry c 1 0 * x 0 + cov_entry c 1 1 * x 1)

/-- The matrix read from the array is positive semi-definite: symmetric with
a non-negative quadratic form. -/
def cov_pos_semidef [LinearOrderedField F] (c : Fin 4 → F) : Prop :=
  cov_symmetric c ∧ ∀ x : Fin 2 → F, 0 ≤ cov_quadratic_form c x

/-- Each of the two off-diagonal entries (indices 1 and 2) is in magnitude at
most a tenth of each of the two diagonal entries (indices 0 and 3). -/
def cov_offdiag_tenth [LinearOrderedField F] (c : Fin 4 → F) : Prop :=
  (10 * |c 1| ≤ |c 0| ∧ 10 * |c 1| ≤ |c 3|) ∧
    (10 * |c 2| ≤ |c 0| ∧ 10 * |c 2| ≤ |c 3|)

end Covariance

/-- An estimator whose filtered d/q current is `(1, 2)`, every other member
as the constructor leaves it. -/
def estimator_with_current : StateEstimator ℚ :=
  { (StateEstimator.new : StateEstimator ℚ) with
    state_estimate_ :=
      { (StateEstimator.new : StateEstimator ℚ).state_estimate_ with
        i_dq_a := Function.update (Function.update (fun _ => 0) 0 1) 1 2 } }

/-- The estimator `estimator_with_current` with its angle estimate set to 1;
the cached next sine and cosine are untouched. -/
def estimator_with_angle : StateEstimator ℚ :=
  { estimator_with_current with
    state_estimate_ :=
      { estimator_with_current.state_estimate_ with angle_rad := 1 } }

/-! ## Sequences of calls and the estimator invariant -/

/-- One call made on a constructed `StateEstimator`: `reset_state()` or
`set_params(params, control_params, t_s)`. -/
inductive EstimatorCall (F : Type) where
  | call_reset_state : EstimatorCall F
  | call_set_params (params : motor_params_t F)
      (control_params : control_params_t F) (t_s : F) : EstimatorCall F

/-- The state a single call leaves behind. -/
def apply_call {F : Type} [Field F] (fast_expf : F → F) (M_PI : F)
    (s : StateEstimator F) : EstimatorCall F → StateEstimator F
  | EstimatorCall.call_reset_state => reset_state s
  | EstimatorCall.call_set_params params control_params t_s =>
      set_params fast_expf M_PI s params control_params t_s

/-- The state of an estimator that was constructed and then received the
given calls, first call first. -/
def run_calls {F : Type} [Field F] (fast_expf : F → F) (M_PI : F)
    (calls : List (EstimatorCall F)) : StateEstimator F :=
  calls.foldl (apply_call fast_expf M_PI) StateEstimator.new

/-- The angle estimate lies in the half-open interval from `-pi` (excluded)
to `pi` (included), and the two diagonal entries of the covariance (indices 0
and 3) are non-negative. -/
def estimator_invariant {F : Type} [LinearOrderedField F] (pi : F)
    (s : StateEstimator F) : Prop :=
  (-pi < s.state_estimate_.angle_rad ∧ s.state_estimate_.angle_rad ≤ pi) ∧
    0 ≤ s.state_covariance_ 0 ∧ 0 ≤ s.state_covariance_ 3

/-! ## Binary32 arithmetic

The C type `float` is IEEE 754 binary32.  The definitions below give its
values and the four operations `set_params` uses, with round-to-nearest,
ties-to-even, gradual underflow, overflow to infinity and the special values
of division by zero.  The sign of a zero is not represented: `finite 0`
stands for a zero of either sign, and a zero divisor is read as `+0.0f` (in
`set_params` the divisors are the arguments `ls_h` and `t_s`). -/

/-- A value of C type `float`: a finite number, an infinity or a NaN.  The
results of the operations below are binary32 numbers; an argument may carry
any number of `F`. -/
inductive binary32 (F : Type) where
  | finite (x : F) : binary32 F
  | pos_inf : binary32 F
  | neg_inf : binary32 F
  | nan : binary32 F

section Binary32

variable {F : Type} [LinearOrderedField F] [FloorRing F]

/-- The integer nearest to `y`; a tie goes to the even neighbour. -/
def round_half_even (y : F) : ℤ :=
  if y - ⌊y⌋ < 1 / 2 then ⌊y⌋
  else if 1 / 2 < y - ⌊y⌋ then ⌊y⌋ + 1
  else if ⌊y⌋ % 2 = 0 then ⌊y⌋
  else ⌊y⌋ + 1

/-- The binary exponent at which `x` is rounded: `floor (log2 |x|)`, and -126
(the exponent of the subnormal numbers) below `2 ^ (-126)`. -/
def binary32_exponent (x : F) : ℤ :=
  max (Int.log 2 |x|) (-126)

/-- The multiple of `2 ^ (e - 23)` nearest to `x` (ties to even), `e` the
exponent of `x`: the binary32 number nearest to `x`, as long as that number is
below `2 ^ 128`. -/
def round_binary32 (x : F) : F :=
  (round_half_even (x / 2 ^ (binary32_exponent x - 23)) : F) *
    2 ^ (binary32_exponent x - 23)

/-- The binary32 result of an operation whose exact result is `x`: the
rounded value, or an infinity of the sign of `x` when the rounded value
reaches `2 ^ 128`. -/
def to_binary32 (x : F) : binary32 F :=
  if 2 ^ (128 : ℤ) ≤ |round_binary32 x| then
    if x < 0 then binary32.neg_inf else binary32.pos_inf
  else binary32.finite (round_binary32 x)

/-- Unary minus of C on `float`. -/
def binary32_neg : binary32 F → binary32 F
  | binary32.finite x => binary32.finite (-x)
  | binary32.pos_inf => binary32.neg_inf
  | binary32.neg_inf => binary32.pos_inf
  | binary32.nan => binary32.nan

/-- The operator `-` of C on `float`. -/
def binary32_sub : binary32 F → binary32 F → binary32 F
  | binary32.finite x, binary32.finite y => to_binary32 (x - y)
  | binary32.finite _, binary32.pos_inf => binary32.neg_inf
  | binary32.finite _, binary32.neg_inf => binary32.pos_inf
  | binary32.pos_inf, binary32.finite _ => binary32.pos_inf
  | binary32.pos_inf, binary32.neg_inf => binary32.pos_inf
  | binary32.pos_inf, binary32.pos_inf => binary32.nan
  | binary32.neg_inf, binary32.finite _ => binary32.neg_inf
  | binary32.neg_inf, binary32.pos_inf => binary32.neg_inf
  | binary32.neg_inf, binary32.neg_inf => binary32.nan
  | binary32.nan, _ => binary32.nan
  | _, binary32.nan => binary32.nan

/-- An infinity of the given sign (`true` is negative). -/
def binary32_inf (negative : Bool) : binary32 F :=
  if negative then binary32.neg_inf else binary32.pos_inf

/-- The product of an infinity of the given sign and the finite `x`: NaN for
a zero, else the infinity whose sign is the product of the signs. -/
def binary32_inf_mul (negative : Bool) (x : F) : binary32 F :=
  if x = 0 then binary32.nan
  else if 0 < x then binary32_inf negative
  else binary32_inf (!negative)

/-- The operator `*` of C on `float`. -/
def binary32_mul : binary32 F → binary32 F → binary32 F
  | binary32.finite x, binary32.finite y => to_binary32 (x * y)
  | binary32.finite x, binary32.pos_inf => binary32_inf_mul false x
  | binary32.finite x, binary32.neg_inf => binary32_inf_mul true x
  | binary32.pos_inf, binary32.finite y => binary32_inf_mul false y
  | binary32.neg_inf, binary32.finite y => binary32_inf_mul true y
  | binary32.pos_inf, binary32.pos_inf => binary32.pos_inf
  | binary32.pos_inf, binary32.neg_inf => binary32.neg_inf
  | binary32.neg_inf, binary32.pos_inf => binary32.neg_inf
  | binary32.neg_inf, binary32.neg_inf => binary32.pos_inf
  | binary32.nan, _ => binary32.nan
  | _, binary32.nan => binary32.nan

/-- The operator `/` of C on `float`.  A finite non-zero number divided by
zero is the infinity of its sign, zero divided by zero is NaN. -/
def binary32_div : binary32 F → binary32 F → binary32 F
  | binary32.finite x, binary32.finite y =>
      if y = 0 then
        if x = 0 then binary32.nan
        else if 0 < x then binary32.pos_inf
        else binary32.neg_inf
      else to_binary32 (x / y)
  | binary32.finite _, binary32.pos_inf => binary32.finite 0
  | binary32.finite _, binary32.neg_inf => binary32.finite 0
  | binary32.pos_inf, binary32.finite y =>
      if 0 ≤ y then binary32.pos_inf else binary32.neg_inf
  | binary32.neg_inf, binary32.finite y =>
      if 0 ≤ y then binary32.neg_inf else binary32.pos_inf
  | binary32.pos_inf, binary32.pos_inf => binary32.nan
  | binary32.pos_inf, binary32.neg_inf => binary32.nan
  | binary32.neg_inf, binary32.pos_inf => binary32.nan
  | binary32.neg_inf, binary32.neg_inf => binary32.nan
  | binary32.nan, _ => binary32.nan
  | _, binary32.nan => binary32.nan

/-- An exponential on `float` arguments from a function `f` on the finite
ones: `f x` at a finite `x` (not rounded, so that `f` can be the real
exponential itself), 0 at minus infinity, plus infinity at plus infinity, NaN
at NaN. -/
def lift_fast_expf (f : F → F) : binary32 F → binary32 F
  | binary32.finite x => binary32.finite (f x)
  | binary32.pos_inf => binary32.pos_inf
  | binary32.neg_inf => binary32.finite 0
  | binary32.nan => binary32.nan

end Binary32

/-! ## `set_params` over an arbitrary arithmetic -/

/-- The arithmetic `set_params` uses on values of type `V`: the literals
`1.0f`, `2.0f` and `50.0f`, the constant `(float)M_PI`, unary minus, the
operators `-`, `*` and `/`, and the helper `fast_expf`. -/
structure float_arith (V : Type) where
  one : V
  two : V
  fifty : V
  pi : V
  neg : V → V
  sub : V → V → V
  mul : V → V → V
  div : V → V → V
  fast_expf : V → V

/-- Exact arithmetic in a field: no operation rounds, and `x / 0 = 0`. -/
def exact_arith {F : Type} [Field F] (fast_expf : F → F) (M_PI : F) :
    float_arith F :=
  { one := 1
    two := 2
    fifty := 50
    pi := M_PI
    neg := fun x => -x
    sub := fun x y => x - y
    mul := fun x y => x * y
    div := fun x y => x / y
    fast_expf := fast_expf }

/-- The arithmetic of binary32: every operation rounds its result. -/
def binary32_arith {F : Type} [LinearOrderedField F] [FloorRing F]
    (fast_expf : binary32 F → binary32 F) (M_PI : binary32 F) :
    float_arith (binary32 F) :=
  { one := binary32.finite 1
    two := binary32.finite 2
    fifty := binary32.finite 50
    pi := M_PI
    neg := binary32_neg
    sub := binary32_sub
    mul := binary32_mul
    div := binary32_div
    fast_expf := fast_expf }

/-- The member function `StateEstimator::set_params`, statement by statement,
over the arithmetic `ar`; operators associate as in C (`x / y * z` is
`(x / y) * z`, `-x * y * z` is `((-x) * y) * z`). -/
def set_params_arith {V : Type} (ar : float_arith V) (s : StateEstimator V)
    (params : motor_params_t V) (control_params : control_params_t V)
    (t_s : V) : StateEstimator V :=
  let s1 := { s with
    a_ := ar.sub ar.one (ar.mul (ar.div params.rs_r params.ls_h) t_s) }
  let s2 := { s1 with
    b_ := ar.mul (ar.div params.phi_v_s_per_rad params.ls_h) t_s }
  let s3 := { s2 with c_ := ar.div t_s params.ls_h }
  let s4 := { s3 with t_ := t_s }
  let s5 := { s4 with t_inv_ := ar.div ar.one t_s }
  let wb : V := ar.mul (ar.mul ar.two ar.pi) control_params.bandwidth_hz
  let s6 := { s5 with
    i_dq_lpf_coeff_ :=
      ar.sub ar.one
        (ar.fast_expf (ar.mul (ar.mul (ar.neg wb) t_s) ar.fifty)) }
  { s6 with
    angular_velocity_lpf_coeff_ :=
      ar.sub ar.one (ar.fast_expf (ar.mul (ar.neg wb) t_s)) }

/-- A call of `set_params` under the fail-fast assertion mechanism of
`esc_assert.h`: `none` stands for a halt in an assertion, `some st` for a
return that leaves the object in state `st`.  The body of `set_params`
contains no assertion, so every call returns. -/
def set_params_call {V : Type} (ar : float_arith V) (s : StateEstimator V)
    (params : motor_params_t V) (control_params : control_params_t V)
    (t_s : V) : Option (StateEstimator V) :=
  some (set_params_arith ar s params control_params t_s)

/-- The constructor `StateEstimator::StateEstimator()` with binary32 members:
every member is `0.0f` except `next_cos_theta_`, which is `1.0f`. -/
def StateEstimator.new_binary32 {F : Type} [LinearOrderedField F] :
    StateEstimator (binary32 F) :=
  { state_estimate_ :=
      { angular_acceleration_rad_per_s2 := binary32.finite 0
        angular_velocity_rad_per_s := binary32.finite 0
        angle_rad := binary32.finite 0
        i_dq_a := fun _ => binary32.finite 0 }
    a_ := binary32.finite 0
    b_ := binary32.finite 0
    c_ := binary32.finite 0
    t_ := binary32.finite 0
    t_inv_ := binary32.finite 0
    i_dq_lpf_coeff_ := binary32.finite 0
    angular_velocity_lpf_coeff_ := binary32.finite 0
    state_covariance_ := fun _ => binary32.finite 0
    last_i_ab_a_ := fun _ => binary32.finite 0
    next_sin_theta_ := binary32.finite 0
    next_cos_theta_ := binary32.finite 1 }

/-- The value of `(float)M_PI`: the binary32 number nearest to pi,
`13176795 * 2 ^ (-22) = 3.1415927410125732`. -/
def binary32_pi {F : Type} [LinearOrderedField F] : binary32 F :=
  binary32.finite (13176795 / 4194304)

/-- Claim C1 (fails on the code): `reset_state` zeroes the angle, the angular
velocity and the angular acceleration but never assigns `i_dq_a`; on an
estimator whose filtered d/q current is `(1, 2)` the current is still
`(1, 2)`, not zero, after the reset. -/
theorem reset_state_keeps_filtered_current :
    (reset_state estimator_with_current).state_estimate_.angle_rad = 0 ∧
    (reset_state estimator_with_current).state_estimate_.angular_velocity_rad_per_s = 0 ∧
    (reset_state estimator_with_current).state_estimate_.angular_acceleration_rad_per_s2 = 0 ∧
    (reset_state estimator_with_current).state_estimate_.i_dq_a 0 = 1 ∧
    (reset_state estimator_with_current).state_estimate_.i_dq_a 1 = 2 ∧
    (reset_state estimator_with_current).state_estimate_.i_dq_a 0 ≠ 0 ∧
    (reset_state estimator_with_current).state_estimate_.i_dq_a 1 ≠ 0 := by
  refine ⟨rfl, rfl, rfl, ?_, ?_, ?_, ?_⟩ <;>
    simp [reset_state, estimator_with_current, Function.update]

/-- The covariance array `reset_state` leaves behind, element by element. -/
theorem reset_state_covariance_values {F : Type} [Field F]
    (s : StateEstimator F) :
    (reset_state s).state_covariance_ 0 = 100 ∧
    (reset_state s).state_covariance_ 1 = 10 ∧
    (reset_state s).state_covariance_ 2 = 100 ∧
    (reset_state s).state_covariance_ 3 = 10 := by
  refine ⟨?_, ?_, ?_, ?_⟩ <;> simp [reset_state, Function.update]

/-- Claim C2 (fails on the code): for every prior state the matrix that
`reset_state` leaves in `state_covariance_`, read column-major, has entry
`(0,1) = 100` and entry `(1,0) = 10`; it is not symmetric, its quadratic form
takes the value `-80` at the vector `(1, -2)`, and it is not positive
semi-definite. -/
theorem reset_state_covariance_not_symmetric_psd {F : Type}
    [LinearOrderedField F] (s : StateEstimator F) :
    cov_entry (reset_state s).state_covariance_ 0 1 = 100 ∧
    cov_entry (reset_state s).state_covariance_ 1 0 = 10 ∧
    ¬ cov_symmetric (reset_state s).state_covariance_ ∧
    cov_quadratic_form (reset_state s).state_covariance_
      (Function.update (Function.update (fun _ => 0) 0 1) 1 (-2)) = -80 ∧
    ¬ cov_pos_semidef (reset_state s).state_covariance_ := by
  obtain ⟨h0, h1, h2, h3⟩ := reset_state_covariance_values s
  have e01 : cov_entry (reset_state s).state_covariance_ 0 1 = 100 := h2
  have e10 : cov_entry (reset_state s).state_covariance_ 1 0 = 10 := h1
  have e00 : cov_entry (reset_state s).state_covariance_ 0 0 = 100 := h0
  have e11 : cov_entry (reset_state s).state_covariance_ 1 1 = 10 := h3
  have hsym : ¬ cov_symmetric (reset_state s).state_covariance_ := by
    intro h
    have h' := h 0 1
    rw [e01, e10] at h'
    norm_num at h'
  refine ⟨e01, e10, hsym, ?_, fun h => hsym h.1⟩
  unfold cov_quadratic_form
  rw [e00, e01, e10, e11]
  simp [Function.update]
  norm_num

/-- Claim C3 (fails on the code): for every prior state `reset_state` stores
100 at indices 0 and 2 and 10 at indices 1 and 3, so the off-diagonal entry at
index 2 equals the diagonal entry at index 0 and is ten times the diagonal
entry at index 3; the off-diagonal entries are not a factor of ten below the
diagonal entries. -/
theorem reset_state_covariance_offdiag_not_tenth {F : Type}
    [LinearOrderedField F] (s : StateEstimator F) :
    (reset_state s).state_covariance_ 2 = (reset_state s).state_covariance_ 0 ∧
    (reset_state s).state_covariance_ 2 =
      10 * (reset_state s).state_covariance_ 3 ∧
    (reset_state s).state_covariance_ 3 < (reset_state s).state_covariance_ 2 ∧
    ¬ cov_offdiag_tenth (reset_state s).state_covariance_ := by
  obtain ⟨h0, h1, h2, h3⟩ := reset_state_covariance_values s
  unfold cov_offdiag_tenth
  rw [h0, h1, h2, h3]
  refine ⟨rfl, by norm_num, by norm_num, ?_⟩
  rintro ⟨-, h, -⟩
  rw [abs_of_pos (by norm_num : (0 : F) < 100)] at h
  norm_num at h

/-- Claim C4: for inductance `L > 0` and sample period `T > 0`, `set_params`
stores `a_ = 1 - (R / L) * T`, `b_ = (phi / L) * T` and `c_ = T / L` in exact
arithmetic, whatever the prior state, the bandwidth and the exponential
helper. -/
theorem set_params_model_coefficients {F : Type} [LinearOrderedField F]
    (fast_expf : F → F) (M_PI : F) (s : StateEstimator F)
    (params : motor_params_t F) (control_params : control_params_t F)
    (t_s : F) (_hL : 0 < params.ls_h) (_hT : 0 < t_s) :
    (set_params fast_expf M_PI s params control_params t_s).a_ =
      1 - (params.rs_r / params.ls_h) * t_s ∧
    (set_params fast_expf M_PI s params control_params t_s).b_ =
      (params.phi_v_s_per_rad / params.ls_h) * t_s ∧
    (set_params fast_expf M_PI s params control_params t_s).c_ =
      t_s / params.ls_h :=
  ⟨rfl, rfl, rfl⟩

/-- Instance of claim C4 at `R = 3`, `L = 2`, `phi = 5`, `T = 1/10`. -/
theorem set_params_model_coefficients_witness :
    (0 : ℚ) < 2 ∧ (0 : ℚ) < 1 / 10 ∧
    (set_params (fun x : ℚ => 1 + x) (22 / 7) StateEstimator.new
      ⟨3, 2, 5⟩ ⟨7⟩ (1 / 10)).a_ = 1 - ((3 : ℚ) / 2) * (1 / 10) ∧
    (set_params (fun x : ℚ => 1 + x) (22 / 7) StateEstimator.new
      ⟨3, 2, 5⟩ ⟨7⟩ (1 / 10)).b_ = ((5 : ℚ) / 2) * (1 / 10) ∧
    (set_params (fun x : ℚ => 1 + x) (22 / 7) StateEstimator.new
      ⟨3, 2, 5⟩ ⟨7⟩ (1 / 10)).c_ = (1 / 10 : ℚ) / 2 :=
  ⟨by norm_num, by norm_num,
    set_params_model_coefficients (fun x : ℚ => 1 + x) (22 / 7)
      StateEstimator.new ⟨3, 2, 5⟩ ⟨7⟩ (1 / 10) (by norm_num) (by norm_num)⟩

/-! ### Rounding to binary32 -/

/-- Over exact arithmetic the statements of `set_params_arith` are those of
`set_params`. -/
theorem set_params_arith_exact {F : Type} [Field F] (fast_expf : F → F)
    (M_PI : F) (s : StateEstimator F) (params : motor_params_t F)
    (control_params : control_params_t F) (t_s : F) :
    set_params_arith (exact_arith fast_expf M_PI) s params control_params t_s =
      set_params fast_expf M_PI s params control_params t_s :=
  rfl

/-- Claim C6: `set_params` leaves the state estimate, the covariance,
`last_i_ab_a_` and the cached next sine and cosine as they were; only `a_`,
`b_`, `c_`, `t_`, `t_inv_` and the two low-pass coefficients are assigned. -/
theorem set_params_frame {F : Type} [Field F] (fast_expf : F → F) (M_PI : F)
    (s : StateEstimator F) (params : motor_params_t F)
    (control_params : control_params_t F) (t_s : F) :
    (set_params fast_expf M_PI s params control_params t_s).state_estimate_ =
      s.state_estimate_ ∧
    (set_params fast_expf M_PI s params control_params t_s).state_covariance_ =
      s.state_covariance_ ∧
    (set_params fast_expf M_PI s params control_params t_s).last_i_ab_a_ =
      s.last_i_ab_a_ ∧
    (set_params fast_expf M_PI s params control_params t_s).next_sin_theta_ =
      s.next_sin_theta_ ∧
    (set_params fast_expf M_PI s params control_params t_s).next_cos_theta_ =
      s.next_cos_theta_ ∧
    set_params fast_expf M_PI s params control_params t_s =
      { s with
        a_ := (set_params fast_expf M_PI s params control_params t_s).a_
        b_ := (set_params fast_expf M_PI s params control_params t_s).b_
        c_ := (set_params fast_expf M_PI s params control_params t_s).c_
        t_ := (set_params fast_expf M_PI s params control_params t_s).t_
        t_inv_ := (set_params fast_expf M_PI s params control_params t_s).t_inv_
        i_dq_lpf_coeff_ :=
          (set_params fast_expf M_PI s params control_params t_s).i_dq_lpf_coeff_
        angular_velocity_lpf_coeff_ :=
          (set_params fast_expf M_PI s params control_params
            t_s).angular_velocity_lpf_coeff_ } :=
  ⟨rfl, rfl, rfl, rfl, rfl, rfl⟩



/-- Claim C7 as stated is false: a call of `set_params` with a sample period
of `0.0f` does not halt in an assertion; it returns, and the object then
holds `t_ = 0` and `t_inv_ = 1.0f / 0.0f`, plus infinity. -/
theorem set_params_zero_period_returns :
    set_params_call (binary32_arith (lift_fast_expf Real.exp) binary32_pi)
        StateEstimator.new_binary32
        ⟨binary32.finite 3, binary32.finite 2, binary32.finite 5⟩
        ⟨binary32.finite 7⟩ (binary32.finite 0) ≠ none ∧
    (set_params_call (binary32_arith (lift_fast_expf Real.exp) binary32_pi)
        StateEstimator.new_binary32
        ⟨binary32.finite 3, binary32.finite 2, binary32.finite 5⟩
        ⟨binary32.finite 7⟩ (binary32.finite 0)).map (fun st => st.t_) =
      some (binary32.finite 0) ∧
    (set_params_call (binary32_arith (lift_fast_expf Real.exp) binary32_pi)
        StateEstimator.new_binary32
        ⟨binary32.finite 3, binary32.finite 2, binary32.finite 5⟩
        ⟨binary32.finite 7⟩ (binary32.finite 0)).map (fun st => st.t_inv_) =
      some binary32.pos_inf := by
  refine ⟨?_, rfl, ?_⟩
  · simp [set_params_call]
  · simp [set_params_call, set_params_arith, binary32_arith, binary32_div]

/-- Claim C7, amended: `set_params` contains no check of its arguments; in
binary32 arithmetic every call returns, and a call with a sample period of
`0.0f` stores `t_ = 0` and `t_inv_ = 1.0f / 0.0f`, plus infinity, and leaves
the state estimate, the covariance, `last_i_ab_a_` and the cached sine and
cosine as they were. -/
theorem set_params_never_halts {F : Type} [LinearOrderedField F]
    [FloorRing F] (fast_expf : binary32 F → binary32 F) (M_PI : binary32 F)
    (s : StateEstimator (binary32 F)) (params : motor_params_t (binary32 F))
    (control_params : control_params_t (binary32 F)) :
    (∀ t_s : binary32 F,
      set_params_call (binary32_arith fast_expf M_PI) s params control_params
        t_s ≠ none) ∧
    ∃ st : StateEstimator (binary32 F),
      set_params_call (binary32_arith fast_expf M_PI) s params control_params
        (binary32.finite 0) = some st ∧
      st.t_ = binary32.finite 0 ∧
      st.t_inv_ = binary32.pos_inf ∧
      st.state_estimate_ = s.state_estimate_ ∧
      st.state_covariance_ = s.state_covariance_ ∧
      st.last_i_ab_a_ = s.last_i_ab_a_ ∧
      st.next_sin_theta_ = s.next_sin_theta_ ∧
      st.next_cos_theta_ = s.next_cos_theta_ := by
  refine ⟨fun t_s => by simp [set_params_call], _, rfl, rfl, ?_, rfl, rfl, rfl,
    rfl, rfl⟩
  simp [set_params_arith, binary32_arith, binary32_div]

/-- Claim C8: `is_estimation_complete` returns true exactly when `test_idx_`
is 4; whatever the other members hold, it returns false when `test_idx_` is
0, 1, 2 or 3. -/
theorem is_estimation_complete_iff {F : Type} [Field F]
    (p : ParameterEstimator F) :
    (is_estimation_complete p = true ↔ p.test_idx_ = 4) ∧
    (is_estimation_complete p = false ↔ p.test_idx_ ≠ 4) ∧
    ∀ k : Fin 4, is_estimation_complete { p with test_idx_ := k.val } = false := by
  refine ⟨?_, ?_, ?_⟩
  · simp [is_estimation_complete]
  · simp [is_estimation_complete]
  · intro k
    have hk : k.val ≠ 4 := by omega
    simp [is_estimation_complete, hk]

/-- Claim C9: `get_est_v_alpha_beta_from_v_dq` returns the inverse
rotating-frame transform of its input at the cached `next_sin_theta_` and
`next_cos_theta_`, leaves the estimator unchanged, and two estimators that
agree on the cached sine and cosine return the same output whatever their
other members (for instance `angle_rad`) hold. -/
theorem get_est_v_alpha_beta_cached_trig {F : Type} [Field F]
    (ipt : (Fin 2 → F) → F → F → (Fin 2 → F)) (s s' : StateEstimator F)
    (in_v_dq : Fin 2 → F)
    (hsin : s.next_sin_theta_ = s'.next_sin_theta_)
    (hcos : s.next_cos_theta_ = s'.next_cos_theta_) :
    (get_est_v_alpha_beta_from_v_dq ipt s in_v_dq).2 =
      ipt in_v_dq s.next_sin_theta_ s.next_cos_theta_ ∧
    (get_est_v_alpha_beta_from_v_dq ipt s in_v_dq).1 = s ∧
    (get_est_v_alpha_beta_from_v_dq ipt s in_v_dq).2 =
      (get_est_v_alpha_beta_from_v_dq ipt s' in_v_dq).2 := by
  refine ⟨rfl, rfl, ?_⟩
  show ipt in_v_dq s.next_sin_theta_ s.next_cos_theta_ =
    ipt in_v_dq s'.next_sin_theta_ s'.next_cos_theta_
  rw [hsin, hcos]

/-- Instance of claim C9: the estimator with filtered current `(1, 2)` and the
same estimator with `angle_rad` set to 1 have the same cached sine and cosine
but different angles, and give the same output. -/
theorem get_est_v_alpha_beta_cached_trig_witness :
    estimator_with_current.next_sin_theta_ =
      estimator_with_angle.next_sin_theta_ ∧
    estimator_with_current.next_cos_theta_ =
      estimator_with_angle.next_cos_theta_ ∧
    estimator_with_current.state_estimate_.angle_rad ≠
      estimator_with_angle.state_estimate_.angle_rad ∧
    (get_est_v_alpha_beta_from_v_dq inverse_park_transform
        estimator_with_current (fun _ => 3)).2 =
      (get_est_v_alpha_beta_from_v_dq inverse_park_transform
        estimator_with_angle (fun _ => 3)).2 :=
  ⟨rfl, rfl, by simp [estimator_with_current, estimator_with_angle, StateEstimator.new],
    (get_est_v_alpha_beta_cached_trig inverse_park_transform
      estimator_with_current estimator_with_angle (fun _ => 3) rfl rfl).2.2⟩

/-- Claim C10: for every prior state `reset_state` leaves `next_sin_theta_ = 0`
and `next_cos_theta_ = 1`, and with the standard inverse Park transform
`get_est_v_alpha_beta_from_v_dq` called right after `reset_state` returns its
d/q input unchanged. -/
theorem reset_state_then_inverse_park_is_identity {F : Type} [Field F]
    (s : StateEstimator F) (in_v_dq : Fin 2 → F) :
    (reset_state s).next_sin_theta_ = 0 ∧
    (reset_state s).next_cos_theta_ = 1 ∧
    (get_est_v_alpha_beta_from_v_dq inverse_park_transform (reset_state s)
      in_v_dq).2 = in_v_dq := by
  refine ⟨rfl, rfl, ?_⟩
  funext i
  have h0 : (reset_state s).next_sin_theta_ = 0 := rfl
  have h1 : (reset_state s).next_cos_theta_ = 1 := rfl
  simp only [get_est_v_alpha_beta_from_v_dq, inverse_park_transform, h0, h1]
  fin_cases i <;> simp [Function.update]

/-- Claim C11: `reset_state` is idempotent; applied twice it leaves exactly
the state, member for member, that one application leaves. -/
theorem reset_state_idempotent {F : Type} [Field F] (s : StateEstimator F) :
    reset_state (reset_state s) = reset_state s := by
  have hc : (reset_state (reset_state s)).state_covariance_ =
      (reset_state s).state_covariance_ := by
    funext i
    fin_cases i <;> simp [reset_state, Function.update]
  have hl : (reset_state (reset_state s)).last_i_ab_a_ =
      (reset_state s).last_i_ab_a_ := by
    funext i
    fin_cases i <;> simp [reset_state, Function.update]
  have hstep : reset_state (reset_state s) =
      { reset_state s with
        state_covariance_ := (reset_state (reset_state s)).state_covariance_
        last_i_ab_a_ := (reset_state (reset_state s)).last_i_ab_a_ } := rfl
  rw [hstep, hc, hl]

/-- Claim C12: `get_state_estimate` writes to its output the stored
`state_estimate_`, equal in acceleration, velocity, angle and both d/q
currents, and leaves the estimator as it was. -/
theorem get_state_estimate_copies {F : Type} [Field F]
    (s : StateEstimator F) :
    (get_state_estimate s).2 = s.state_estimate_ ∧
    (get_state_estimate s).2.angular_acceleration_rad_per_s2 =
      s.state_estimate_.angular_acceleration_rad_per_s2 ∧
    (get_state_estimate s).2.angular_velocity_rad_per_s =
      s.state_estimate_.angular_velocity_rad_per_s ∧
    (get_state_estimate s).2.angle_rad = s.state_estimate_.angle_rad ∧
    (get_state_estimate s).2.i_dq_a 0 = s.state_estimate_.i_dq_a 0 ∧
    (get_state_estimate s).2.i_dq_a 1 = s.state_estimate_.i_dq_a 1 ∧
    (get_state_estimate s).1 = s :=
  ⟨rfl, rfl, rfl, rfl, rfl, rfl, rfl⟩

/-- Claim C13: for a sample period `T > 0`, after `set_params` the stored
`t_` equals `T`, is strictly positive, and `t_inv_` is its exact reciprocal:
`t_ * t_inv_ = 1`. -/
theorem set_params_sample_period {F : Type} [LinearOrderedField F]
    (fast_expf : F → F) (M_PI : F) (s : StateEstimator F)
    (params : motor_params_t F) (control_params : control_params_t F)
    (t_s : F) (hT : 0 < t_s) :
    (set_params fast_expf M_PI s params control_params t_s).t_ = t_s ∧
    0 < (set_params fast_expf M_PI s params control_params t_s).t_ ∧
    (set_params fast_expf M_PI s params control_params t_s).t_ *
      (set_params fast_expf M_PI s params control_params t_s).t_inv_ = 1 := by
  refine ⟨rfl, hT, ?_⟩
  show t_s * (1 / t_s) = 1
  exact mul_one_div_cancel (ne_of_gt hT)

/-- Instance of claim C13 at a sample period of 1/20000 s. -/
theorem set_params_sample_period_witness :
    (0 : ℚ) < 1 / 20000 ∧
    (set_params (fun x : ℚ => 1 + x) (22 / 7) StateEstimator.new
      ⟨3, 2, 5⟩ ⟨7⟩ (1 / 20000)).t_ = 1 / 20000 ∧
    (set_params (fun x : ℚ => 1 + x) (22 / 7) StateEstimator.new
      ⟨3, 2, 5⟩ ⟨7⟩ (1 / 20000)).t_ *
      (set_params (fun x : ℚ => 1 + x) (22 / 7) StateEstimator.new
        ⟨3, 2, 5⟩ ⟨7⟩ (1 / 20000)).t_inv_ = 1 :=
  have h := set_params_sample_period (fun x : ℚ => 1 + x) (22 / 7)
    StateEstimator.new ⟨3, 2, 5⟩ ⟨7⟩ (1 / 20000) (by norm_num)
  ⟨by norm_num, h.1, h.2.2⟩

/-- The invariant holds after `reset_state`, whatever the prior state. -/
theorem estimator_invariant_reset_state {F : Type} [LinearOrderedField F]
    (pi : F) (hpi : 0 < pi) (s : StateEstimator F) :
    estimator_invariant pi (reset_state s) := by
  obtain ⟨h0, -, -, h3⟩ := reset_state_covariance_values s
  have ha : (reset_state s).state_estimate_.angle_rad = 0 := rfl
  unfold estimator_invariant
  rw [h0, h3, ha]
  refine ⟨⟨by linarith, le_of_lt hpi⟩, by norm_num, by norm_num⟩

/-- The invariant reads only members that `set_params` does not assign. -/
theorem estimator_invariant_set_params {F : Type} [LinearOrderedField F]
    (pi : F) (fast_expf : F → F) (M_PI : F) (s : StateEstimator F)
    (params : motor_params_t F) (control_params : control_params_t F)
    (t_s : F) :
    estimator_invariant pi
      (set_params fast_expf M_PI s params control_params t_s) ↔
    estimator_invariant pi s :=
  Iff.rfl

/-- The invariant is carried along any list of calls. -/
theorem estimator_invariant_foldl {F : Type} [LinearOrderedField F]
    (pi : F) (hpi : 0 < pi) (fast_expf : F → F) (M_PI : F)
    (calls : List (EstimatorCall F)) (s : StateEstimator F)
    (hs : estimator_invariant pi s) :
    estimator_invariant pi (calls.foldl (apply_call fast_expf M_PI) s) := by
  induction calls generalizing s with
  | nil => exact hs
  | cons c rest ih =>
    apply ih
    cases c with
    | call_reset_state => exact estimator_invariant_reset_state pi hpi s
    | call_set_params params control_params t_s =>
      exact (estimator_invariant_set_params pi fast_expf M_PI s params
        control_params t_s).mpr hs

/-- Claim C14: the invariant "the angle lies in (-pi, pi] and the covariance
entries at indices 0 and 3 are non-negative" holds for a freshly constructed
estimator, holds after `reset_state`, holds after `set_params` exactly when
it held before, and therefore holds after the constructor followed by any
list of `reset_state` and `set_params` calls. -/
theorem estimator_invariant_reachable (fast_expf : ℝ → ℝ) :
    estimator_invariant Real.pi (StateEstimator.new : StateEstimator ℝ) ∧
    (∀ s : StateEstimator ℝ, estimator_invariant Real.pi (reset_state s)) ∧
    (∀ (s : StateEstimator ℝ) (params : motor_params_t ℝ)
      (control_params : control_params_t ℝ) (t_s : ℝ),
      (estimator_invariant Real.pi
        (set_params fast_expf Real.pi s params control_params t_s) ↔
      estimator_invariant Real.pi s)) ∧
    ∀ calls : List (EstimatorCall ℝ),
      estimator_invariant Real.pi (run_calls fast_expf Real.pi calls) := by
  have hnew : estimator_invariant Real.pi (StateEstimator.new : StateEstimator ℝ) := by
    have ha : (StateEstimator.new : StateEstimator ℝ).state_estimate_.angle_rad = 0 := rfl
    have h0 : (StateEstimator.new : StateEstimator ℝ).state_covariance_ 0 = 0 := by
      simp [StateEstimator.new, Function.update]
    have h3 : (StateEstimator.new : StateEstimator ℝ).state_covariance_ 3 = 0 := by
      simp [StateEstimator.new, Function.update]
    unfold estimator_invariant
    rw [ha, h0, h3]
    have hp := Real.pi_pos
    exact ⟨⟨by linarith, le_of_lt hp⟩, le_refl _, le_refl _⟩
  refine ⟨hnew, estimator_invariant_reset_state Real.pi Real.pi_pos, ?_, ?_⟩
  · intro s params control_params t_s
    exact estimator_invariant_set_params Real.pi fast_expf Real.pi s params
      control_params t_s
  · intro calls
    exact estimator_invariant_foldl Real.pi Real.pi_pos fast_expf Real.pi calls
      StateEstimator.new hnew

/-- Claim C15: `reset_state` leaves `a_`, `b_`, `c_`, `t_`, `t_inv_` and both
low-pass coefficients as they were, and `reset_state` followed by
`set_params` leaves the same state as `set_params` followed by
`reset_state`. -/
theorem reset_state_set_params_commute {F : Type} [Field F]
    (fast_expf : F → F) (M_PI : F) (s : StateEstimator F)
    (params : motor_params_t F) (control_params : control_params_t F)
    (t_s : F) :
    (reset_state s).a_ = s.a_ ∧
    (reset_state s).b_ = s.b_ ∧
    (reset_state s).c_ = s.c_ ∧
    (reset_state s).t_ = s.t_ ∧
    (reset_state s).t_inv_ = s.t_inv_ ∧
    (reset_state s).i_dq_lpf_coeff_ = s.i_dq_lpf_coeff_ ∧
    (reset_state s).angular_velocity_lpf_coeff_ =
      s.angular_velocity_lpf_coeff_ ∧
    set_params fast_expf M_PI (reset_state s) params control_params t_s =
      reset_state (set_params fast_expf M_PI s params control_params t_s) :=
  ⟨rfl, rfl, rfl, rfl, rfl, rfl, rfl, rfl⟩

/-- Claim C16: the constructor leaves all four covariance entries at zero,
`reset_state` on the constructed estimator changes each of them, and every
other member of the constructed estimator (state estimate, `last_i_ab_a_`,
cached sine 0 and cosine 1, all coefficients) already has the value
`reset_state` gives it. -/
theorem constructor_differs_from_reset_state_in_covariance {F : Type}
    [LinearOrderedField F] :
    (∀ i : Fin 4, (StateEstimator.new : StateEstimator F).state_covariance_ i = 0) ∧
    (∀ i : Fin 4, (reset_state (StateEstimator.new : StateEstimator F)).state_covariance_ i ≠
      (StateEstimator.new : StateEstimator F).state_covariance_ i) ∧
    (StateEstimator.new : StateEstimator F).next_sin_theta_ = 0 ∧
    (StateEstimator.new : StateEstimator F).next_cos_theta_ = 1 ∧
    reset_state (StateEstimator.new : StateEstimator F) =
      { (StateEstimator.new : StateEstimator F) with
        state_covariance_ :=
          (reset_state (StateEstimator.new : StateEstimator F)).state_covariance_ } := by
  have hz : ∀ i : Fin 4,
      (StateEstimator.new : StateEstimator F).state_covariance_ i = 0 := by
    intro i
    fin_cases i <;> simp [StateEstimator.new, Function.update]
  obtain ⟨h0, h1, h2, h3⟩ :=
    reset_state_covariance_values (StateEstimator.new : StateEstimator F)
  refine ⟨hz, ?_, rfl, rfl, ?_⟩
  · intro i
    rw [hz i]
    fin_cases i
    · show (reset_state (StateEstimator.new : StateEstimator F)).state_covariance_ 0 ≠ 0
      rw [h0]; norm_num
    · show (reset_state (StateEstimator.new : StateEstimator F)).state_covariance_ 1 ≠ 0
      rw [h1]; norm_num
    · show (reset_state (StateEstimator.new : StateEstimator F)).state_covariance_ 2 ≠ 0
      rw [h2]; norm_num
    · show (reset_state (StateEstimator.new : StateEstimator F)).state_covariance_ 3 ≠ 0
      rw [h3]; norm_num
  · have hl : (reset_state (StateEstimator.new : StateEstimator F)).last_i_ab_a_ =
        (StateEstimator.new : StateEstimator F).last_i_ab_a_ := by
      funext i
      fin_cases i <;> simp [reset_state, StateEstimator.new, Function.update]
    have hstep : reset_state (StateEstimator.new : StateEstimator F) =
        { (StateEstimator.new : StateEstimator F) with
          state_covariance_ :=
            (reset_state (StateEstimator.new : StateEstimator F)).state_covariance_
          last_i_ab_a_ :=
            (reset_state (StateEstimator.new : StateEstimator F)).last_i_ab_a_ } := rfl
    rw [hstep, hl]

/-- Claim C17: a freshly constructed `ParameterEstimator` has `test_idx_ = 0`
(so `test_idx_ <= 4` and `is_estimation_complete` returns false);
`get_samples` returns element `i` of `sample_voltages_` and of
`sample_currents_` at index `i` of its two outputs, which on the fresh
estimator are four zero voltages and four zero currents, and it leaves the
estimator unchanged. -/
theorem parameter_estimator_fresh {F : Type} [Field F] :
    (ParameterEstimator.new : ParameterEstimator F).test_idx_ = 0 ∧
    (ParameterEstimator.new : ParameterEstimator F).test_idx_ ≤ 4 ∧
    is_estimation_complete (ParameterEstimator.new : ParameterEstimator F) = false ∧
    (∀ (p : ParameterEstimator F) (i : Fin 4),
      (get_samples p).2.1 i = p.sample_voltages_ i ∧
      (get_samples p).2.2 i = p.sample_currents_ i) ∧
    (∀ i : Fin 4,
      (get_samples (ParameterEstimator.new : ParameterEstimator F)).2.1 i = 0) ∧
    (∀ i : Fin 4,
      (get_samples (ParameterEstimator.new : ParameterEstimator F)).2.2 i = 0) ∧
    (get_samples (ParameterEstimator.new : ParameterEstimator F)).1 =
      ParameterEstimator.new := by
  refine ⟨rfl, ?_, rfl, fun p i => ⟨rfl, rfl⟩, ?_, ?_, rfl⟩
  · show (0 : Nat) ≤ 4
    omega
  · intro i
    fin_cases i <;> simp [get_samples, ParameterEstimator.new, Function.update]
  · intro i
    fin_cases i <;> simp [get_samples, ParameterEstimator.new, Function.update]

end VectorControl
